import Mathlib

/-!
Verification of the bounded-partition routing core of the mbox→eml→pst toolkit.

The definitions below are a shallow embedding of the two source files:

* `eml_to_pst_import.py`: the `PstRouter` class (sequential / even-split and
  by-year routing with size-capped rotation), `create_or_attach_pst` (modelled
  as a provisioner handing out fresh handle ids), and the per-item main loop
  (routing, placement, periodic flush).
* `mbox_to_eml_exporter.py`: `fits_limits` and the directory-chunking part of
  `process_single_mbox` (per-directory count/byte caps with `__partN` probing).

External effects (COM/MAPI calls, filesystem writes, printing) are modelled by
their ledger-visible footprint only: a provisioned store is a fresh handle id,
a placement either succeeds or fails (a caught exception), and paths are the
strings the code builds.  Ghost fields (`closedBytes`) record the byte counter
of a container at the moment a rotation supersedes it, so that properties about
closed containers can be stated; they mirror no mutation that the source does
not perform.
-/

/-- One entry of `PstRouter.year` (`self.year[year]` in the source): the dict
`{"path", "store", "root", "bytes", "part"}`.  `store` and `root` are COM
handles created together; we keep one handle id. -/
structure YearState where
  store : Nat
  path : String
  bytes : Nat
  part : Nat
deriving Repr, DecidableEq

/-- `PstRouter.cur`: `{"store": None, "root": None, "path": None, "bytes": 0,
"part": 0}`.  `store = none` models `store is None`. -/
structure Cur where
  store : Option Nat
  path : Option String
  bytes : Nat
  part : Nat
deriving Repr, DecidableEq

/-- The mutable state of a `PstRouter` instance together with the provisioner:
`nextHandle` is the id the next `create_or_attach_pst` call will return, and
`closedBytes` is a ghost log of the sequential byte counter at each rotation
(the final accumulated bytes of every superseded container). -/
structure RouterState where
  nextHandle : Nat
  cur : Cur
  years : List (Int × YearState)
  closedBytes : List Nat
deriving Repr, DecidableEq

/-- Router state at construction time (`PstRouter.__init__`). -/
def initRouter : RouterState :=
  { nextHandle := 0
    cur := { store := none, path := none, bytes := 0, part := 0 }
    years := []
    closedBytes := [] }

/-- `PstRouter._new_path`: `os.path.join(self.out_dir, f"{self.base}_{suffix}.pst")`. -/
def new_path (outDir base suffix : String) : String :=
  outDir ++ "/" ++ base ++ "_" ++ suffix ++ ".pst"

/-- `PstRouter.set_total_bytes`: `if self.splits and self.splits > 0:
self.target_bytes = max(1, total_bytes // self.splits)`.  `splits` comes from
`--splits` (`None` when absent); Python truthiness of an int is `≠ 0`.
The result is the router's `target_bytes` field (initially `None`). -/
def set_total_bytes (splits : Option Int) (totalBytes : Nat) : Option Nat :=
  match splits with
  | some n => if n ≠ 0 ∧ 0 < n then some (max 1 (totalBytes / n.toNat)) else none
  | none => none

/-- Python truthiness of the `target_bytes` field (`None` and `0` are falsy). -/
def target_truthy : Option Nat → Bool
  | none => false
  | some v => v != 0

/-- `PstRouter._need_rotate_seq`. -/
def need_rotate_seq (maxBytes : Nat) (target : Option Nat) (cur : Cur) (incoming : Nat) : Bool :=
  if cur.store.isSome = true ∧ maxBytes < cur.bytes + incoming then true
  else if target_truthy target = true ∧ cur.store.isSome = true ∧ target.getD 0 ≤ cur.bytes then true
  else false

/-- `PstRouter._rotate_new`: increment the global part counter, provision a new
PST at `base_part<n>.pst` (a fresh handle), and reset the byte counter.  The
byte counter of the superseded container (if any) is recorded in the ghost log. -/
def rotate_new (outDir base : String) (st : RouterState) : RouterState :=
  let part := st.cur.part + 1
  let desired := new_path outDir base ("part" ++ Nat.repr part)
  { st with
    nextHandle := st.nextHandle + 1
    cur := { store := some st.nextHandle, path := some desired, bytes := 0, part := part }
    closedBytes :=
      match st.cur.store with
      | some _ => st.closedBytes ++ [st.cur.bytes]
      | none => st.closedBytes }

/-- The sequential / even-split branch of `PstRouter.route`: rotate when no
container is open or `_need_rotate_seq` fires, then add the item's size and
return `(store, path)` (the `root` handle is created together with `store`). -/
def route_seq (outDir base : String) (maxBytes : Nat) (target : Option Nat)
    (st : RouterState) (size : Nat) : RouterState × Option Nat × Option String :=
  let st1 :=
    if st.cur.store = none ∨ need_rotate_seq maxBytes target st.cur size = true
    then rotate_new outDir base st
    else st
  let st2 := { st1 with cur := { st1.cur with bytes := st1.cur.bytes + size } }
  (st2, st2.cur.store, st2.cur.path)

/-- State part of `route_seq`. -/
def route_seq_st (outDir base : String) (maxBytes : Nat) (target : Option Nat)
    (st : RouterState) (size : Nat) : RouterState :=
  (route_seq outDir base maxBytes target st size).1

/-- Route a whole stream of item sizes through the sequential branch. -/
def route_seq_list (outDir base : String) (maxBytes : Nat) (target : Option Nat)
    (st : RouterState) : List Nat → RouterState
  | [] => st
  | size :: rest =>
      route_seq_list outDir base maxBytes target
        (route_seq_st outDir base maxBytes target st size) rest

/-- Final byte totals of all containers a sequential run produced: the ghost
log of superseded containers followed by the still-open one (if any). -/
def containerTotals (st : RouterState) : List Nat :=
  st.closedBytes ++ (match st.cur.store with | some _ => [st.cur.bytes] | none => [])

/-- Lookup in the `self.year` dict. -/
def lookupY : List (Int × YearState) → Int → Option YearState
  | [], _ => none
  | (k, v) :: rest, y => if k = y then some v else lookupY rest y

/-- Store/replace in the `self.year` dict. -/
def insertY : List (Int × YearState) → Int → YearState → List (Int × YearState)
  | [], y, v => [(y, v)]
  | (k, w) :: rest, y, v => if k = y then (k, v) :: rest else (k, w) :: insertY rest y v

/-- `PstRouter._ensure_year`: lazily create the part-1 PST for a new year, or
rotate to the next part when the incoming size would push the lineage past
`max_bytes`; otherwise return the lineage unchanged. -/
def ensure_year (outDir base : String) (maxBytes : Nat) (st : RouterState)
    (year : Int) (incoming : Nat) : RouterState × YearState :=
  match lookupY st.years year with
  | none =>
      let desired := new_path outDir base (toString year ++ "_part1")
      let s : YearState := { store := st.nextHandle, path := desired, bytes := 0, part := 1 }
      ({ st with nextHandle := st.nextHandle + 1, years := insertY st.years year s }, s)
  | some s =>
      if maxBytes < s.bytes + incoming then
        let part := s.part + 1
        let desired := new_path outDir base (toString year ++ "_part" ++ Nat.repr part)
        let s2 : YearState := { store := st.nextHandle, path := desired, bytes := 0, part := part }
        ({ st with nextHandle := st.nextHandle + 1, years := insertY st.years year s2 }, s2)
      else (st, s)

/-- The by-year branch of `PstRouter.route`: `s = self._ensure_year(y, size);
s["bytes"] += size` (the dict entry is mutated in place, hence re-inserted). -/
def route_year (outDir base : String) (maxBytes : Nat) (st : RouterState)
    (year : Int) (size : Nat) : RouterState × Nat × String :=
  let r := ensure_year outDir base maxBytes st year size
  let s2 := { r.2 with bytes := r.2.bytes + size }
  ({ r.1 with years := insertY r.1.years year s2 }, s2.store, s2.path)

/-- `y = year_hint or 1970` in `PstRouter.route`. -/
def year_or_default : Option Int → Int
  | none => 1970
  | some v => if v = 0 then 1970 else v

/-- `PstRouter.route` for both modes, returning the state and the
`(store, path)` the caller will write the item into. -/
def route (outDir base : String) (maxBytes : Nat) (target : Option Nat) (byYear : Bool)
    (st : RouterState) (size : Nat) (yearHint : Option Int) :
    RouterState × Option Nat × Option String :=
  if byYear then
    let r := route_year outDir base maxBytes st (year_or_default yearHint) size
    (r.1, some r.2.1, some r.2.2)
  else
    route_seq outDir base maxBytes target st size

/-- The per-item state of `main`'s loop in `eml_to_pst_import.py`: the router,
the loop-local `store` / `pst_path` variables assigned from `router.route`
(and re-assigned by a successful flush), and the `processed` counter. -/
structure LoopState where
  rs : RouterState
  localStore : Option Nat
  localPath : Option String
  processed : Nat
deriving Repr, DecidableEq

/-- Loop state before the first item. -/
def initLoop : LoopState :=
  { rs := initRouter, localStore := none, localPath := none, processed := 0 }

/-- One iteration of `main`'s per-file loop, restricted to its ledger-visible
effects: route the item, attempt the placement (`create_mail_in_dest`,
`add_attachments`, `item.Save()` — a failure, `placeOk = false`, is caught and
only warned about), bump `processed`, and, when `flush_every` divides
`processed`, detach and re-provision the current PST at the same path.  Note
that the flush assigns only the loop locals `store`/`root`/`pst_path`; it
writes nothing back into `router.cur` or `router.year`.  A failed flush
(`flushOk = false`) leaves the locals as routed. -/
def import_step (outDir base : String) (maxBytes : Nat) (target : Option Nat) (byYear : Bool)
    (flushEvery : Nat) (ls : LoopState) (size : Nat) (yearHint : Option Int)
    (placeOk : Bool) (flushOk : Bool) : LoopState :=
  let r := route outDir base maxBytes target byYear ls.rs size yearHint
  let processed := ls.processed + 1
  if flushEvery ≠ 0 ∧ processed % flushEvery = 0 then
    if flushOk then
      { rs := { r.1 with nextHandle := r.1.nextHandle + 1 }
        localStore := some r.1.nextHandle
        localPath := r.2.2
        processed := processed }
    else
      { rs := r.1, localStore := r.2.1, localPath := r.2.2, processed := processed }
  else
    { rs := r.1, localStore := r.2.1, localPath := r.2.2, processed := processed }

/-!  Directory-chunking variant (`mbox_to_eml_exporter.py`). -/

/-- A destination directory of `process_single_mbox`.  `(d, 1)` models the
primary path `d` built from the layout (e.g. `out/2020/01`), and `(d, p)` for
`p ≥ 2` models the alternate `d ++ "__part" ++ repr p`.  Distinct keys model
distinct path strings: primaries are year/month-formatted and never end in a
`__partN` suffix, and the numeral makes the alternates pairwise distinct. -/
abbrev DirKey := String × Nat

/-- `dir_counts.get(path, 0)` / `dir_bytes.get(path, 0)`. -/
def getD : List (DirKey × Nat) → DirKey → Nat
  | [], _ => 0
  | (k, v) :: rest, key => if k = key then v else getD rest key

/-- `dict[path] = value`. -/
def setD : List (DirKey × Nat) → DirKey → Nat → List (DirKey × Nat)
  | [], key, v => [(key, v)]
  | (k, w) :: rest, key, v => if k = key then (k, v) :: rest else (k, w) :: setD rest key v

/-- `fits_limits` from the source, verbatim: a zero limit is falsy and hence
unbounded; limits are Python ints (the CLI can pass any integer). -/
def fits_limits (count_in_dir bytes_in_dir : Nat) (max_per_dir max_dir_bytes : Int) : Bool :=
  if max_per_dir ≠ 0 ∧ max_per_dir ≤ (count_in_dir : Int) then false
  else if max_dir_bytes ≠ 0 ∧ max_dir_bytes ≤ (bytes_in_dir : Int) then false
  else true

/-- The two tracking dicts of `main` in the exporter, shared across mbox files. -/
structure ExpState where
  dirCounts : List (DirKey × Nat)
  dirBytes : List (DirKey × Nat)
deriving Repr, DecidableEq

/-- Both dicts start empty. -/
def emptyExp : ExpState := ⟨[], []⟩

/-- The `while True` probe of `process_single_mbox`: try `__part2`, `__part3`,
… until one fits.  The Python loop has no bound; the fuel makes the search a
total function, and `none` models the loop never terminating (in which case the
program places nothing and processes no further item). -/
def probe (maxc maxb : Int) (st : ExpState) (base : String) : Nat → Nat → Option Nat
  | 0, _ => none
  | fuel + 1, p =>
      if fits_limits (getD st.dirCounts (base, p)) (getD st.dirBytes (base, p)) maxc maxb
      then some p
      else probe maxc maxb st base fuel (p + 1)

/-- Largest part index occurring among the tracked directories; any part above
it is untracked in both dicts. -/
def maxTrackedPart (st : ExpState) : Nat :=
  ((st.dirCounts ++ st.dirBytes).map (fun kv => kv.1.2)).foldr max 0

/-- The chunking part of one iteration of `process_single_mbox`: check the
primary directory with `fits_limits`, probe `__partN` alternates if it does not
fit, then attempt the write.  On success (`ok = true`) the chosen directory's
`(count, bytes)` are bumped by `(1, size)`; a failed write is caught, warned
about, and changes no tracking state.  The fuel passed to `probe` is
sufficient for every terminating execution of the Python loop. -/
def place1 (maxc maxb : Int) (st : ExpState) (item : String × Nat × Bool) : ExpState :=
  let base := item.1
  let size := item.2.1
  let ok := item.2.2
  let primary : DirKey := (base, 1)
  let dest? : Option DirKey :=
    if fits_limits (getD st.dirCounts primary) (getD st.dirBytes primary) maxc maxb
    then some primary
    else
      match probe maxc maxb st base (maxTrackedPart st + 2) 2 with
      | some p => some (base, p)
      | none => none
  match dest? with
  | none => st
  | some d =>
      if ok then
        { dirCounts := setD st.dirCounts d (getD st.dirCounts d + 1)
          dirBytes := setD st.dirBytes d (getD st.dirBytes d + size) }
      else st

/-- Process a stream of `(primary directory, size, write succeeded)` items. -/
def place_list (maxc maxb : Int) (st : ExpState) : List (String × Nat × Bool) → ExpState
  | [] => st
  | item :: rest => place_list maxc maxb (place1 maxc maxb st item) rest

/-- Largest single item size in an exported stream. -/
def maxSizeOf (items : List (String × Nat × Bool)) : Nat :=
  (items.map (fun it => it.2.1)).foldr max 0

/-- Intermediate state of an even-split run over uniform items of size `s`
with per-container target `m * s`: the router is filling container `q + 1`
(provisioned as handle `q`), which currently holds `i` items, having closed
`q` containers of exactly `m * s` bytes each. -/
def evenState (outDir base : String) (m s q i : Nat) : RouterState :=
  { nextHandle := q + 1
    cur := { store := some q
             path := some (new_path outDir base ("part" ++ Nat.repr (q + 1)))
             bytes := i * s
             part := q + 1 }
    years := []
    closedBytes := List.replicate q (m * s) }

/-! Helper lemmas about the year dict. -/

/-- Looking up a key just stored finds the stored value. -/
theorem lookupY_insertY_self (l : List (Int × YearState)) (y : Int) (v : YearState) :
    lookupY (insertY l y v) y = some v := by
  induction l with
  | nil => simp [insertY, lookupY]
  | cons kv rest ih =>
    by_cases h : kv.1 = y
    · simp [insertY, lookupY, h]
    · simp [insertY, lookupY, h, ih]

/-- C3: in keyed (by-year) mode, for an item whose key already has a lineage,
a rotation occurs if and only if the lineage's accumulated bytes plus the
item's size exceed `max_bytes`; the rotation increments the part number by
one, provisions a new container for that key at the new part number (a fresh
handle at the `<year>_part<n+1>` path), and resets the byte accumulator to
zero, after which the item's size is added to the (possibly just-rotated)
lineage. -/
theorem c3_keyed_rotation (outDir base : String) (maxBytes : Nat) (st : RouterState)
    (year : Int) (size : Nat) (s : YearState) (h : lookupY st.years year = some s) :
    lookupY (route_year outDir base maxBytes st year size).1.years year =
      some (if maxBytes < s.bytes + size then
              { store := st.nextHandle
                path := new_path outDir base (toString year ++ "_part" ++ Nat.repr (s.part + 1))
                bytes := size
                part := s.part + 1 }
            else { s with bytes := s.bytes + size }) := by
  by_cases hrot : maxBytes < s.bytes + size
  · simp only [route_year, ensure_year, h, if_pos hrot]
    simpa using lookupY_insertY_self _ year _
  · simp only [route_year, ensure_year, h, if_neg hrot]
    simpa using lookupY_insertY_self _ year _

/-- Witness for `c3_keyed_rotation`: a lineage at 200 bytes, part 1, cap 250;
routing a 100-byte item rotates to part 2 with a fresh handle and counter 100. -/
theorem c3_witness :
    lookupY (route_year "out" "emails" 250
        { nextHandle := 7
          cur := { store := none, path := none, bytes := 0, part := 0 }
          years := [(2020, { store := 5, path := "x", bytes := 200, part := 1 })]
          closedBytes := [] } 2020 100).1.years 2020 =
      some (if 250 < 200 + 100 then
              { store := 7
                path := new_path "out" "emails" (toString (2020 : Int) ++ "_part" ++ Nat.repr (1 + 1))
                bytes := 100
                part := 1 + 1 }
            else { store := 5, path := "x", bytes := 200 + 100, part := 1 }) :=
  c3_keyed_rotation "out" "emails" 250
    { nextHandle := 7
      cur := { store := none, path := none, bytes := 0, part := 0 }
      years := [(2020, { store := 5, path := "x", bytes := 200, part := 1 })]
      closedBytes := [] }
    2020 100 { store := 5, path := "x", bytes := 200, part := 1 } (by decide)

/-- C5 counterexample: in the PST importer, a per-item placement failure does
not leave the routed lineage's counters unincremented — `route` adds the
item's size at routing time, before the placement is attempted.  One item of
100 bytes whose placement fails leaves `cur.bytes = 100`, not `0`. -/
theorem c5_counterexample :
    (import_step "out" "emails" 1000 none false 0 initLoop 100 none false true).rs.cur.bytes
        = 100 ∧
    ¬ (import_step "out" "emails" 1000 none false 0 initLoop 100 none false true).rs.cur.bytes
        = 0 := by
  exact ⟨rfl, by decide⟩

/-- C5 (amended): a failed per-item placement is caught and processing
continues in both programs.  In the exporter the directory counters are not
incremented for the failed item (the tracking state is unchanged, and the rest
of the stream is processed as if the item were absent).  In the PST importer,
however, the loop state after a failed placement is identical to the state
after a successful one: the routed lineage's byte counter was already
incremented by `route` and is not rolled back. -/
theorem c5_amended_frame :
    (∀ (maxc maxb : Int) (st : ExpState) (base : String) (size : Nat),
        place1 maxc maxb st (base, size, false) = st) ∧
    (∀ (maxc maxb : Int) (st : ExpState) (base : String) (size : Nat)
        (rest : List (String × Nat × Bool)),
        place_list maxc maxb st ((base, size, false) :: rest) = place_list maxc maxb st rest) ∧
    (∀ (outDir base : String) (maxBytes : Nat) (target : Option Nat) (byYear : Bool)
        (flushEvery : Nat) (ls : LoopState) (size : Nat) (yearHint : Option Int) (flushOk : Bool),
        import_step outDir base maxBytes target byYear flushEvery ls size yearHint false flushOk
          = import_step outDir base maxBytes target byYear flushEvery ls size yearHint true flushOk) := by
  have h1 : ∀ (maxc maxb : Int) (st : ExpState) (base : String) (size : Nat),
      place1 maxc maxb st (base, size, false) = st := by
    intro maxc maxb st base size
    simp only [place1]
    split <;> rfl
  refine ⟨h1, ?_, ?_⟩
  · intro maxc maxb st base size rest
    simp [place_list, h1]
  · intro outDir base maxBytes target byYear flushEvery ls size yearHint flushOk
    rfl

/-- C6: evidence for the flush write-back bug.  With `flush_every = 1`, after
the first routed item the flush detaches and re-provisions the current PST:
the loop-local `store` now holds the fresh handle (id 1), but the router's
ledger still holds the old, detached handle (id 0), and the next `route` call
for the lineage returns that stale handle rather than the refreshed one. -/
theorem c6_flush_stale_ledger :
    (import_step "out" "emails" 1000 none false 1 initLoop 10 none true true).localStore
        = some 1 ∧
    (import_step "out" "emails" 1000 none false 1 initLoop 10 none true true).rs.cur.store
        = some 0 ∧
    (route "out" "emails" 1000 none false
        (import_step "out" "emails" 1000 none false 1 initLoop 10 none true true).rs
        10 none).2.1 = some 0 := by
  exact ⟨rfl, rfl, rfl⟩

/-- C7: a flush operation (successful or failed) leaves every field of the
router's ledger unchanged beyond what routing the item itself did: after a
full loop iteration, `router.cur` and `router.year` equal exactly the values
`route` produced, in both sequential and keyed modes — so neither the byte
accumulator nor the part number of any lineage is altered by the flush.  (The
source tracks no per-lineage item count; the whole lineage record is shown
unchanged, which covers every counter field it has.) -/
theorem c7_flush_frame (outDir base : String) (maxBytes : Nat) (target : Option Nat)
    (byYear : Bool) (flushEvery : Nat) (ls : LoopState) (size : Nat) (yearHint : Option Int)
    (placeOk flushOk : Bool) :
    (import_step outDir base maxBytes target byYear flushEvery ls size yearHint
        placeOk flushOk).rs.cur
      = (route outDir base maxBytes target byYear ls.rs size yearHint).1.cur ∧
    (import_step outDir base maxBytes target byYear flushEvery ls size yearHint
        placeOk flushOk).rs.years
      = (route outDir base maxBytes target byYear ls.rs size yearHint).1.years := by
  simp only [import_step]
  split
  · split <;> exact ⟨rfl, rfl⟩
  · exact ⟨rfl, rfl⟩

/-- C9: the even-split planner.  With a positive split count the target is
`max 1 (totalBytes div splitCount)`; with the option absent, zero or negative
no target is set; and with no target the sequential rotation decision is
exactly the size-cap check. -/
theorem c9_planner :
    (∀ (totalBytes : Nat) (n : Int), 0 < n →
        set_total_bytes (some n) totalBytes = some (max 1 (totalBytes / n.toNat))) ∧
    (∀ totalBytes : Nat, set_total_bytes none totalBytes = none) ∧
    (∀ (totalBytes : Nat) (n : Int), n ≤ 0 → set_total_bytes (some n) totalBytes = none) ∧
    (∀ (maxBytes : Nat) (cur : Cur) (size : Nat),
        need_rotate_seq maxBytes none cur size
          = (cur.store.isSome && decide (maxBytes < cur.bytes + size))) := by
  refine ⟨?_, ?_, ?_, ?_⟩
  · intro totalBytes n hn
    simp [set_total_bytes, hn, hn.ne']
  · intro totalBytes
    rfl
  · intro totalBytes n hn
    have : ¬ ((n ≠ 0) ∧ 0 < n) := by omega
    simp [set_total_bytes, this]
  · intro maxBytes cur size
    by_cases h1 : cur.store.isSome = true
    · by_cases h2 : maxBytes < cur.bytes + size
      · simp [need_rotate_seq, target_truthy, h1, h2]
      · simp [need_rotate_seq, target_truthy, h1, h2]
    · simp [need_rotate_seq, target_truthy, h1]

/-- Witness for `c9_planner` at concrete inputs: `plan(1000, 4) = 250`,
absent and negative split counts disable the target, and with no target a
rotation fires exactly when the size cap is crossed. -/
theorem c9_witness :
    set_total_bytes (some 4) 1000 = some (max 1 (1000 / (4 : Int).toNat)) ∧
    set_total_bytes none 1000 = none ∧
    set_total_bytes (some (-2)) 1000 = none ∧
    need_rotate_seq 250 none { store := some 0, path := none, bytes := 200, part := 1 } 100
      = ((some 0 : Option Nat).isSome && decide (250 < 200 + 100)) :=
  ⟨c9_planner.1 1000 4 (by decide), c9_planner.2.1 1000,
   c9_planner.2.2.1 1000 (-2) (by decide), c9_planner.2.2.2 250 _ 100⟩

/-- C10: with `max_bytes = 0` the sequential router does not treat the cap as
unlimited: once a container exists, any item of positive size makes the
pre-check `bytes + size > 0` fire, so the route rotates to a fresh part. -/
theorem c10_zero_cap (outDir base : String) (target : Option Nat) (st : RouterState)
    (size : Nat) (h1 : st.cur.store.isSome = true) (h2 : 0 < size) :
    need_rotate_seq 0 target st.cur size = true ∧
    (route_seq outDir base 0 target st size).1.cur.part = st.cur.part + 1 := by
  have hr : need_rotate_seq 0 target st.cur size = true := by
    unfold need_rotate_seq
    rw [if_pos ⟨h1, by omega⟩]
  refine ⟨hr, ?_⟩
  simp [route_seq, hr, rotate_new]

/-- Witness for `c10_zero_cap`: a container holding 5 bytes under a zero cap
rotates from part 1 to part 2 on a 3-byte item. -/
theorem c10_witness :
    need_rotate_seq 0 none
      { store := some 0, path := some "p", bytes := 5, part := 1 } 3 = true ∧
    (route_seq "out" "emails" 0 none
        { nextHandle := 1
          cur := { store := some 0, path := some "p", bytes := 5, part := 1 }
          years := []
          closedBytes := [] } 3).1.cur.part = 2 :=
  c10_zero_cap "out" "emails" none
    { nextHandle := 1
      cur := { store := some 0, path := some "p", bytes := 5, part := 1 }
      years := []
      closedBytes := [] } 3 (by decide) (by decide)

/-- C1 counterexample: with `max_bytes = 100` and item sizes `[150, 10]`, the
rotation triggered by the second item closes a container whose recorded byte
counter is 150, which exceeds `max_bytes` — the claimed rotation-time bound
`recorded bytes ≤ maxBytesPerContainer` fails when a single item is oversized. -/
theorem c1_counterexample :
    (route_seq_list "out" "emails" 100 none initRouter [150, 10]).closedBytes = [150] ∧
    ¬ (150 ≤ 100) := by
  exact ⟨rfl, by omega⟩

/-- C2 counterexample: even-split with `splitCount = 3` over five items of
uniform size 1 (`totalBytes = 5`, target `max 1 (5 div 3) = 1`) creates five
containers, not 3 or 4. -/
theorem c2_counterexample :
    (route_seq_list "out" "emails" 1000 (set_total_bytes (some 3) 5) initRouter
        (List.replicate 5 1)).cur.part = 5 ∧
    ¬ ((route_seq_list "out" "emails" 1000 (set_total_bytes (some 3) 5) initRouter
        (List.replicate 5 1)).cur.part = 3 ∨
       (route_seq_list "out" "emails" 1000 (set_total_bytes (some 3) 5) initRouter
        (List.replicate 5 1)).cur.part = 3 + 1) := by
  refine ⟨rfl, ?_⟩
  decide

/-- C8 counterexample: `fits_limits` does not accept the `(0, 0)` state for
every combination of limits — a negative `--max-per-dir` (any nonzero value
with `0 ≥ max_per_dir`) rejects even a brand-new empty directory, and the
probe then fails at every part number (the Python `while True` loop never
terminates). -/
theorem c8_counterexample :
    fits_limits 0 0 (-1) 0 = false ∧ probe (-1) 0 emptyExp "2020" 5 2 = none := by
  exact ⟨rfl, rfl⟩

/-! C1: byte bounds for the sequential / even-split rotation. -/

/-- One sequential routing step either rotates (the new counter is exactly the
item's size, and at most the old counter is appended to the closed log) or it
does not, in which case the size-cap pre-check guarantees the new counter stays
within `max_bytes`. -/
theorem route_seq_st_cases (outDir base : String) (maxBytes : Nat) (target : Option Nat)
    (st : RouterState) (x : Nat) :
    ((route_seq_st outDir base maxBytes target st x).cur.bytes = x ∧
      ((route_seq_st outDir base maxBytes target st x).closedBytes = st.closedBytes ∨
       (route_seq_st outDir base maxBytes target st x).closedBytes
         = st.closedBytes ++ [st.cur.bytes])) ∨
    ((route_seq_st outDir base maxBytes target st x).cur.bytes = st.cur.bytes + x ∧
      st.cur.bytes + x ≤ maxBytes ∧
      (route_seq_st outDir base maxBytes target st x).closedBytes = st.closedBytes) := by
  by_cases hc : st.cur.store = none ∨ need_rotate_seq maxBytes target st.cur x = true
  · left
    simp only [route_seq_st, route_seq, if_pos hc, rotate_new]
    constructor
    · simp
    · cases hst : st.cur.store with
      | none => exact Or.inl (by simp)
      | some v => exact Or.inr (by simp)
  · right
    push_neg at hc
    obtain ⟨hstore, hnr⟩ := hc
    have hsome : st.cur.store.isSome = true := by
      cases h : st.cur.store with
      | none => exact absurd h hstore
      | some v => rfl
    have hle : st.cur.bytes + x ≤ maxBytes := by
      by_contra hgt
      push_neg at hgt
      have : need_rotate_seq maxBytes target st.cur x = true := by
        unfold need_rotate_seq
        rw [if_pos ⟨hsome, hgt⟩]
      exact hnr this
    have hni : ¬ (st.cur.store = none ∨ need_rotate_seq maxBytes target st.cur x = true) := by
      push_neg
      exact ⟨hstore, hnr⟩
    simp only [route_seq_st, route_seq, if_neg hni]
    exact ⟨trivial, hle, trivial⟩

/-- Invariant: routing any stream whose items are bounded by `M` keeps the
current byte counter, and every recorded closed-container total, at or below
`max maxBytes M`. -/
theorem route_seq_list_bytes_bound (outDir base : String) (maxBytes : Nat) (target : Option Nat)
    (M : Nat) :
    ∀ (sizes : List Nat) (st : RouterState),
      (∀ x ∈ sizes, x ≤ M) →
      st.cur.bytes ≤ max maxBytes M →
      (∀ c ∈ st.closedBytes, c ≤ max maxBytes M) →
      (route_seq_list outDir base maxBytes target st sizes).cur.bytes ≤ max maxBytes M ∧
      ∀ c ∈ (route_seq_list outDir base maxBytes target st sizes).closedBytes,
        c ≤ max maxBytes M := by
  intro sizes
  induction sizes with
  | nil => intro st _ h1 h2; exact ⟨h1, h2⟩
  | cons x rest ih =>
    intro st hs h1 h2
    have hx : x ≤ M := hs x (by simp)
    have hrest : ∀ y ∈ rest, y ≤ M := fun y hy => hs y (by simp [hy])
    have hstep := route_seq_st_cases outDir base maxBytes target st x
    refine ih (route_seq_st outDir base maxBytes target st x) hrest ?_ ?_
    · rcases hstep with ⟨hb, _⟩ | ⟨hb, hle, _⟩
      · rw [hb]; exact le_trans hx (le_max_right _ _)
      · rw [hb]; exact le_trans hle (le_max_left _ _)
    · rcases hstep with ⟨_, hcl | hcl⟩ | ⟨_, _, hcl⟩
      · rw [hcl]; exact h2
      · rw [hcl]
        intro c hcmem
        rcases List.mem_append.mp hcmem with hmem | hmem
        · exact h2 c hmem
        · rw [List.mem_singleton.mp hmem]; exact h1
      · rw [hcl]; exact h2

/-- C1 (amended): with the rotation decision pre-checked on the counter before
the item is added, every container's final byte total — equivalently, the
recorded byte counter at the moment its rotation was triggered — is bounded by
`max maxBytesPerContainer maxSingleItemSize`; in particular it never exceeds
`maxBytesPerContainer + maxSingleItemSize`.  (The sharper original bound
`≤ maxBytesPerContainer` at rotation time fails exactly when a container holds
a single item that alone exceeds the cap; cf. the counterexample.) -/
theorem c1_amended (outDir base : String) (maxBytes M : Nat) (target : Option Nat)
    (sizes : List Nat) (hM : ∀ x ∈ sizes, x ≤ M) :
    ∀ t ∈ containerTotals (route_seq_list outDir base maxBytes target initRouter sizes),
      t ≤ max maxBytes M ∧ t ≤ maxBytes + M := by
  have h := route_seq_list_bytes_bound outDir base maxBytes target M sizes initRouter hM
    (by simp [initRouter]) (by simp [initRouter])
  have hmax : max maxBytes M ≤ maxBytes + M :=
    max_le (Nat.le_add_right _ _) (Nat.le_add_left _ _)
  intro t ht
  unfold containerTotals at ht
  rcases List.mem_append.mp ht with h1 | h2
  · exact ⟨h.2 t h1, le_trans (h.2 t h1) hmax⟩
  · revert h2
    cases hcs : (route_seq_list outDir base maxBytes target initRouter sizes).cur.store with
    | none => intro h2; cases h2
    | some v =>
      intro h2
      rw [List.mem_singleton.mp h2]
      exact ⟨h.1, le_trans h.1 hmax⟩

/-- Witness for `c1_amended`: the run with cap 100 and sizes `[150, 10]` — the
oversized container's 150 bytes satisfy both amended bounds. -/
theorem c1_witness : 150 ≤ max 100 150 ∧ 150 ≤ 100 + 150 :=
  c1_amended "out" "emails" 100 150 none [150, 10] (by decide) 150 (by decide)

/-! C4 and C8: directory caps and probe termination in the exporter. -/

/-- An element of a list of naturals is bounded by the `foldr max 0` of the list. -/
theorem le_foldr_max (l : List Nat) (x : Nat) (h : x ∈ l) : x ≤ l.foldr max 0 := by
  induction l with
  | nil => cases h
  | cons a rest ih =>
    rcases List.mem_cons.mp h with rfl | h2
    · simp only [List.foldr_cons]
      exact le_max_left _ _
    · simp only [List.foldr_cons]
      exact le_trans (ih h2) (le_max_right _ _)

/-- Every item size in a stream is at most `maxSizeOf` of the stream. -/
theorem le_maxSizeOf (items : List (String × Nat × Bool)) :
    ∀ it ∈ items, it.2.1 ≤ maxSizeOf items := by
  intro it hit
  exact le_foldr_max _ _ (List.mem_map_of_mem (fun it => it.2.1) hit)

/-- Reading back a freshly stored value. -/
theorem getD_setD_self (l : List (DirKey × Nat)) (k : DirKey) (v : Nat) :
    getD (setD l k v) k = v := by
  induction l with
  | nil => simp [setD, getD]
  | cons kv rest ih =>
    by_cases h : kv.1 = k
    · simp [setD, getD, h]
    · simp [setD, getD, h, ih]

/-- Storing under one key leaves every other key's value unchanged. -/
theorem getD_setD_ne (l : List (DirKey × Nat)) (k k2 : DirKey) (v : Nat) (h : k2 ≠ k) :
    getD (setD l k v) k2 = getD l k2 := by
  have hne : k ≠ k2 := fun e => h (Eq.symm e)
  induction l with
  | nil => simp only [setD, getD, if_neg hne]
  | cons kv rest ih =>
    by_cases hk : kv.1 = k
    · subst hk
      simp only [setD, if_pos rfl, getD, if_neg hne]
    · simp only [setD, if_neg hk, getD, ih]

/-- A key absent from the tracking dict reads as zero. -/
theorem getD_eq_zero_of_forall_ne (l : List (DirKey × Nat)) (k : DirKey)
    (h : ∀ kv ∈ l, kv.1 ≠ k) : getD l k = 0 := by
  induction l with
  | nil => rfl
  | cons kv rest ih =>
    have h1 : kv.1 ≠ k := h kv (by simp)
    simp only [getD, if_neg h1]
    exact ih fun kv2 hkv2 => h kv2 (by simp [hkv2])

/-- Unfolding of a passing `fits_limits` check. -/
theorem fits_limits_true_iff (c b : Nat) (maxc maxb : Int) :
    fits_limits c b maxc maxb = true ↔
      (¬ (maxc ≠ 0 ∧ maxc ≤ (c : Int))) ∧ (¬ (maxb ≠ 0 ∧ maxb ≤ (b : Int))) := by
  unfold fits_limits
  split_ifs with h1 h2
  · simp [h1]
  · simp [h1, h2]
  · simp [h1, h2]

/-- The `(0, 0)` state of a never-used directory passes `fits_limits` for every
pair of non-negative limits (each limit disabled at 0 or strictly positive). -/
theorem fits_limits_zero_state (maxc maxb : Int) (hc : 0 ≤ maxc) (hb : 0 ≤ maxb) :
    fits_limits 0 0 maxc maxb = true := by
  rw [fits_limits_true_iff]
  constructor
  · intro h
    have := h.2
    push_cast at this
    omega
  · intro h
    have := h.2
    push_cast at this
    omega

/-- Every part index tracked in either dict is at most `maxTrackedPart`. -/
theorem tracked_part_le (st : ExpState) (kv : DirKey × Nat)
    (h : kv ∈ st.dirCounts ++ st.dirBytes) : kv.1.2 ≤ maxTrackedPart st := by
  exact le_foldr_max _ _ (List.mem_map_of_mem (fun kv => kv.1.2) h)

/-- The alternate directory at part `maxTrackedPart + 2` is untracked in both
dicts and therefore passes the fits check whenever the limits are non-negative. -/
theorem fresh_alt_fits (st : ExpState) (base : String) (maxc maxb : Int)
    (hc : 0 ≤ maxc) (hb : 0 ≤ maxb) :
    fits_limits (getD st.dirCounts (base, maxTrackedPart st + 2))
      (getD st.dirBytes (base, maxTrackedPart st + 2)) maxc maxb = true := by
  have hcnt : getD st.dirCounts (base, maxTrackedPart st + 2) = 0 := by
    apply getD_eq_zero_of_forall_ne
    intro kv hkv heq
    have hle := tracked_part_le st kv (List.mem_append_left _ hkv)
    have h2 : kv.1.2 = maxTrackedPart st + 2 := by rw [heq]
    omega
  have hbyt : getD st.dirBytes (base, maxTrackedPart st + 2) = 0 := by
    apply getD_eq_zero_of_forall_ne
    intro kv hkv heq
    have hle := tracked_part_le st kv (List.mem_append_right _ hkv)
    have h2 : kv.1.2 = maxTrackedPart st + 2 := by rw [heq]
    omega
  rw [hcnt, hbyt]
  exact fits_limits_zero_state maxc maxb hc hb

/-- If some part in the probed window fits, the probe returns a result. -/
theorem probe_isSome_of_fits (maxc maxb : Int) (st : ExpState) (base : String) :
    ∀ (fuel p q : Nat), p ≤ q → q < p + fuel →
      fits_limits (getD st.dirCounts (base, q)) (getD st.dirBytes (base, q)) maxc maxb = true →
      (probe maxc maxb st base fuel p).isSome = true := by
  intro fuel
  induction fuel with
  | zero =>
    intro p q h1 h2 _
    omega
  | succ n ih =>
    intro p q h1 h2 hq
    by_cases hp : fits_limits (getD st.dirCounts (base, p)) (getD st.dirBytes (base, p))
        maxc maxb = true
    · simp [probe, hp]
    · have hpq : p ≠ q := fun e => hp (e ▸ hq)
      simp only [probe, if_neg hp]
      exact ih (p + 1) q (by omega) (by omega) hq

/-- A successful probe returns a part whose directory passed the fits check. -/
theorem probe_some_fits (maxc maxb : Int) (st : ExpState) (base : String) :
    ∀ (fuel p q : Nat), probe maxc maxb st base fuel p = some q →
      fits_limits (getD st.dirCounts (base, q)) (getD st.dirBytes (base, q)) maxc maxb
        = true := by
  intro fuel
  induction fuel with
  | zero =>
    intro p q h
    simp [probe] at h
  | succ n ih =>
    intro p q h
    rw [probe] at h
    split at h
    · rename_i hf
      obtain rfl : p = q := by injection h
      exact hf
    · exact ih _ _ h

/-- C8 (amended): the fits check accepts the `(0, 0)` state of a brand-new
alternate directory for every combination of NON-NEGATIVE limits (0 meaning
unbounded), and consequently the `__partN` probe loop terminates — within
`maxTrackedPart + 2` iterations it finds a fitting directory.  (For a negative
`--max-per-dir` the check rejects even an empty directory and the loop spins
forever; cf. the counterexample.) -/
theorem c8_amended_probe_terminates (st : ExpState) (base : String) (maxc maxb : Int)
    (hc : 0 ≤ maxc) (hb : 0 ≤ maxb) :
    fits_limits 0 0 maxc maxb = true ∧
    (probe maxc maxb st base (maxTrackedPart st + 2) 2).isSome = true := by
  refine ⟨fits_limits_zero_state maxc maxb hc hb, ?_⟩
  exact probe_isSome_of_fits maxc maxb st base (maxTrackedPart st + 2) 2
    (maxTrackedPart st + 2) (by omega) (by omega) (fresh_alt_fits st base maxc maxb hc hb)

/-- Witness for `c8_amended_probe_terminates`: with `max_per_dir = 2` and
unbounded bytes, the probe on a fresh tracker finds a directory. -/
theorem c8_witness :
    fits_limits 0 0 2 0 = true ∧
    (probe 2 0 emptyExp "2020" (maxTrackedPart emptyExp + 2) 2).isSome = true :=
  c8_amended_probe_terminates emptyExp "2020" 2 0 (by decide) (by decide)

/-- Updating a directory that passed the fits check preserves both cap bounds:
a passing count check means `count < max_per_dir` (so `count + 1` stays within
it), and a passing byte check means `bytes < max_dir_bytes` (so adding an item
of size at most `M` stays below `max_dir_bytes + M`). -/
theorem setD_update_bounds (maxc maxb : Int) (M : Nat) (st : ExpState) (d : DirKey)
    (size : Nat) (hsize : size ≤ M)
    (hfit : fits_limits (getD st.dirCounts d) (getD st.dirBytes d) maxc maxb = true)
    (hc : ∀ k, 0 < maxc → (getD st.dirCounts k : Int) ≤ maxc)
    (hb : ∀ k, 0 < maxb → (getD st.dirBytes k : Int) ≤ maxb + (M : Int)) :
    (∀ k, 0 < maxc →
      (getD (setD st.dirCounts d (getD st.dirCounts d + 1)) k : Int) ≤ maxc) ∧
    (∀ k, 0 < maxb →
      (getD (setD st.dirBytes d (getD st.dirBytes d + size)) k : Int) ≤ maxb + (M : Int)) := by
  rw [fits_limits_true_iff] at hfit
  constructor
  · intro k hmc
    by_cases hk : k = d
    · subst hk
      rw [getD_setD_self]
      have hlt : (getD st.dirCounts k : Int) < maxc := by
        rcases Decidable.not_and_iff_or_not.mp hfit.1 with h | h
        · omega
        · omega
      push_cast
      omega
    · rw [getD_setD_ne _ _ _ _ hk]
      exact hc k hmc
  · intro k hmb
    by_cases hk : k = d
    · subst hk
      rw [getD_setD_self]
      have hlt : (getD st.dirBytes k : Int) < maxb := by
        rcases Decidable.not_and_iff_or_not.mp hfit.2 with h | h
        · omega
        · omega
      have hsz : (size : Int) ≤ (M : Int) := by exact_mod_cast hsize
      push_cast
      omega
    · rw [getD_setD_ne _ _ _ _ hk]
      exact hb k hmb

/-- One placement step preserves both cap bounds. -/
theorem place1_bounds (maxc maxb : Int) (M : Nat) (st : ExpState)
    (it : String × Nat × Bool) (hsize : it.2.1 ≤ M)
    (hc : ∀ k, 0 < maxc → (getD st.dirCounts k : Int) ≤ maxc)
    (hb : ∀ k, 0 < maxb → (getD st.dirBytes k : Int) ≤ maxb + (M : Int)) :
    (∀ k, 0 < maxc → (getD (place1 maxc maxb st it).dirCounts k : Int) ≤ maxc) ∧
    (∀ k, 0 < maxb → (getD (place1 maxc maxb st it).dirBytes k : Int) ≤ maxb + (M : Int)) := by
  obtain ⟨base, size, ok⟩ := it
  simp only [place1]
  by_cases hfp : fits_limits (getD st.dirCounts (base, 1)) (getD st.dirBytes (base, 1))
      maxc maxb = true
  · rw [if_pos hfp]
    cases ok with
    | false => exact ⟨hc, hb⟩
    | true =>
      simp only [if_pos rfl]
      exact setD_update_bounds maxc maxb M st (base, 1) size hsize hfp hc hb
  · rw [if_neg hfp]
    cases hp : probe maxc maxb st base (maxTrackedPart st + 2) 2 with
    | none => exact ⟨hc, hb⟩
    | some p =>
      cases ok with
      | false => exact ⟨hc, hb⟩
      | true =>
        simp only [if_pos rfl]
        exact setD_update_bounds maxc maxb M st (base, p) size hsize
          (probe_some_fits maxc maxb st base _ 2 p hp) hc hb

/-- Streaming preservation of both cap bounds. -/
theorem place_list_bounds (maxc maxb : Int) (M : Nat) :
    ∀ (items : List (String × Nat × Bool)) (st : ExpState),
      (∀ it ∈ items, it.2.1 ≤ M) →
      (∀ k, 0 < maxc → (getD st.dirCounts k : Int) ≤ maxc) →
      (∀ k, 0 < maxb → (getD st.dirBytes k : Int) ≤ maxb + (M : Int)) →
      (∀ k, 0 < maxc →
        (getD (place_list maxc maxb st items).dirCounts k : Int) ≤ maxc) ∧
      (∀ k, 0 < maxb →
        (getD (place_list maxc maxb st items).dirBytes k : Int) ≤ maxb + (M : Int)) := by
  intro items
  induction items with
  | nil => intro st _ hc hb; exact ⟨hc, hb⟩
  | cons it rest ih =>
    intro st hs hc hb
    have hstep := place1_bounds maxc maxb M st it (hs it (by simp)) hc hb
    exact ih (place1 maxc maxb st it) (fun x hx => hs x (by simp [hx])) hstep.1 hstep.2

/-- C4: in the directory-chunking variant the fits check is applied before
placement (with a zero limit meaning unbounded), so over any stream of placed
items, starting from empty trackers, no directory's tracked item count ever
exceeds `max_per_dir` (when positive) and no directory's tracked byte total
ever exceeds `max_dir_bytes` plus the largest single item size in the stream
(when `max_dir_bytes` is positive).  The statement quantifies over all item
lists, hence over every prefix of any stream — "ever". -/
theorem c4_dir_caps (items : List (String × Nat × Bool)) (maxc maxb : Int) (k : DirKey) :
    (0 < maxc → (getD (place_list maxc maxb emptyExp items).dirCounts k : Int) ≤ maxc) ∧
    (0 < maxb →
      (getD (place_list maxc maxb emptyExp items).dirBytes k : Int)
        ≤ maxb + (maxSizeOf items : Int)) := by
  have h := place_list_bounds maxc maxb (maxSizeOf items) items emptyExp
    (le_maxSizeOf items)
    (by intro k2 hk2; simp only [emptyExp, getD]; omega)
    (by intro k2 hk2; simp only [emptyExp, getD]; push_cast; omega)
  exact ⟨h.1 k, h.2 k⟩

/-- Witness for `c4_dir_caps`: five 10-byte items into primary `"2020"` with
`max_per_dir = 2` and `max_dir_bytes = 15`; the primary directory's tracked
count and bytes respect both bounds. -/
theorem c4_witness :
    ((getD (place_list 2 15 emptyExp
        [("2020", 10, true), ("2020", 10, true), ("2020", 10, true),
         ("2020", 10, true), ("2020", 10, true)]).dirCounts ("2020", 1) : Int) ≤ 2) ∧
    ((getD (place_list 2 15 emptyExp
        [("2020", 10, true), ("2020", 10, true), ("2020", 10, true),
         ("2020", 10, true), ("2020", 10, true)]).dirBytes ("2020", 1) : Int)
      ≤ 15 + (maxSizeOf
        [("2020", 10, true), ("2020", 10, true), ("2020", 10, true),
         ("2020", 10, true), ("2020", 10, true)] : Int)) :=
  ⟨(c4_dir_caps
      [("2020", 10, true), ("2020", 10, true), ("2020", 10, true),
       ("2020", 10, true), ("2020", 10, true)] 2 15 ("2020", 1)).1 (by decide),
   (c4_dir_caps
      [("2020", 10, true), ("2020", 10, true), ("2020", 10, true),
       ("2020", 10, true), ("2020", 10, true)] 2 15 ("2020", 1)).2 (by decide)⟩

/-! C2: exact even-split behaviour on uniform streams. -/

/-- Routing a concatenation is routing the pieces in order. -/
theorem route_seq_list_append (outDir base : String) (maxBytes : Nat) (target : Option Nat)
    (l1 l2 : List Nat) :
    ∀ st : RouterState,
      route_seq_list outDir base maxBytes target st (l1 ++ l2)
        = route_seq_list outDir base maxBytes target
            (route_seq_list outDir base maxBytes target st l1) l2 := by
  induction l1 with
  | nil => intro st; rfl
  | cons x rest ih =>
    intro st
    simp only [List.cons_append, route_seq_list]
    exact ih _

/-- The first item of a run provisions container part 1 (handle 0). -/
theorem even_first_step (outDir base : String) (maxBytes m s : Nat) :
    route_seq_st outDir base maxBytes (some (m * s)) initRouter s
      = evenState outDir base m s 0 1 := by
  have hcond : (initRouter.cur.store = none ∨
      need_rotate_seq maxBytes (some (m * s)) initRouter.cur s = true) := Or.inl rfl
  simp only [route_seq_st, route_seq, if_pos hcond, rotate_new, initRouter, evenState]
  simp

/-- Below the target and the cap, an item lands in the current container. -/
theorem even_fill_step (outDir base : String) (maxBytes m s q i : Nat) (hs : 0 < s)
    (him : i < m) (hcap : m * s ≤ maxBytes) :
    route_seq_st outDir base maxBytes (some (m * s)) (evenState outDir base m s q i) s
      = evenState outDir base m s q (i + 1) := by
  have hb1 : ¬ (maxBytes < i * s + s) := by
    have h1 : (i + 1) * s ≤ m * s := Nat.mul_le_mul_right s (by omega)
    rw [Nat.succ_mul] at h1
    omega
  have hb2 : ¬ (m * s ≤ i * s) := by
    have h2 : i * s < m * s := (Nat.mul_lt_mul_right hs).mpr him
    omega
  have hnr : need_rotate_seq maxBytes (some (m * s))
      (evenState outDir base m s q i).cur s = false := by
    unfold need_rotate_seq
    rw [if_neg (fun h => hb1 h.2), if_neg (fun h => hb2 h.2.2)]
  have hcond : ¬ ((evenState outDir base m s q i).cur.store = none ∨
      need_rotate_seq maxBytes (some (m * s)) (evenState outDir base m s q i).cur s = true) := by
    push_neg
    exact ⟨by simp [evenState], by simp [hnr]⟩
  simp only [route_seq_st, route_seq, if_neg hcond]
  simp [evenState, Nat.succ_mul]

/-- At the target (`bytes = m * s`), the next item triggers a rotation: the
full container's total is logged and the item opens the next part. -/
theorem even_rotate_step (outDir base : String) (maxBytes m s q : Nat) (hm : 0 < m)
    (hs : 0 < s) :
    route_seq_st outDir base maxBytes (some (m * s)) (evenState outDir base m s q m) s
      = evenState outDir base m s (q + 1) 1 := by
  have hms : m * s ≠ 0 := Nat.mul_ne_zero (by omega) (by omega)
  have hnr : need_rotate_seq maxBytes (some (m * s))
      (evenState outDir base m s q m).cur s = true := by
    unfold need_rotate_seq
    by_cases h1 : (evenState outDir base m s q m).cur.store.isSome = true ∧
        maxBytes < (evenState outDir base m s q m).cur.bytes + s
    · rw [if_pos h1]
    · rw [if_neg h1, if_pos ⟨by simp [target_truthy, hms], rfl, Nat.le_refl _⟩]
  have hcond : ((evenState outDir base m s q m).cur.store = none ∨
      need_rotate_seq maxBytes (some (m * s)) (evenState outDir base m s q m).cur s = true) :=
    Or.inr hnr
  simp only [route_seq_st, route_seq, if_pos hcond, rotate_new]
  simp [evenState, List.replicate_succ']

/-- Filling the current container from `i` items up to `m` items. -/
theorem even_fill_run (outDir base : String) (maxBytes m s q : Nat) (hs : 0 < s)
    (hcap : m * s ≤ maxBytes) :
    ∀ (r i : Nat), 0 < i → i + r = m →
      route_seq_list outDir base maxBytes (some (m * s)) (evenState outDir base m s q i)
        (List.replicate r s) = evenState outDir base m s q m := by
  intro r
  induction r with
  | zero =>
    intro i hi him
    obtain rfl : i = m := by omega
    rfl
  | succ n ih =>
    intro i hi him
    rw [List.replicate_succ]
    simp only [route_seq_list]
    rw [even_fill_step outDir base maxBytes m s q i hs (by omega) hcap]
    exact ih (i + 1) (by omega) (by omega)

/-- From one full container, `j * m` further uniform items close `j` more
containers of exactly `m * s` bytes each. -/
theorem even_block_run (outDir base : String) (maxBytes m s : Nat) (hm : 0 < m) (hs : 0 < s)
    (hcap : m * s ≤ maxBytes) :
    ∀ (j q : Nat),
      route_seq_list outDir base maxBytes (some (m * s)) (evenState outDir base m s q m)
        (List.replicate (j * m) s) = evenState outDir base m s (q + j) m := by
  have hfirst : ∀ q2 : Nat,
      route_seq_list outDir base maxBytes (some (m * s)) (evenState outDir base m s q2 m)
        (List.replicate m s) = evenState outDir base m s (q2 + 1) m := by
    intro q2
    obtain ⟨mm, rfl⟩ : ∃ mm, m = mm + 1 := ⟨m - 1, by omega⟩
    rw [List.replicate_succ]
    simp only [route_seq_list]
    rw [even_rotate_step outDir base maxBytes (mm + 1) s q2 hm hs]
    exact even_fill_run outDir base maxBytes (mm + 1) s (q2 + 1) hs hcap mm 1
      (by omega) (by omega)
  intro j
  induction j with
  | zero => intro q; simp [route_seq_list]
  | succ n ih =>
    intro q
    have hsplit : (n + 1) * m = m + n * m := by ring
    rw [hsplit, List.replicate_add, route_seq_list_append, hfirst q, ih (q + 1)]
    have he : q + 1 + n = q + (n + 1) := by omega
    rw [he]

/-- C2 (amended): in even-split mode with `splitCount = N > 0` and a stream of
`N * m` items (`m ≥ 1`) of one positive size `s`, with the per-container
target `totalBytes / N = m * s` not exceeding `max_bytes`, the router creates
exactly `N` containers and every container's final byte total is exactly
`totalBytes / N` — in particular within one item's size of it.  (Without the
divisibility hypothesis the container count need not be `N` or `N + 1`:
cf. the counterexample, where 5 unit-size items under `splitCount = 3`
produce 5 containers.) -/
theorem c2_amended (outDir base : String) (N m s maxBytes : Nat)
    (hN : 0 < N) (hm : 0 < m) (hs : 0 < s) (hcap : m * s ≤ maxBytes) :
    (route_seq_list outDir base maxBytes (set_total_bytes (some (N : Int)) (N * m * s))
        initRouter (List.replicate (N * m) s)).cur.part = N ∧
    containerTotals (route_seq_list outDir base maxBytes
        (set_total_bytes (some (N : Int)) (N * m * s))
        initRouter (List.replicate (N * m) s)) = List.replicate N (m * s) := by
  have hms1 : 1 ≤ m * s := Nat.one_le_iff_ne_zero.mpr (Nat.mul_ne_zero (by omega) (by omega))
  have htarget : set_total_bytes (some (N : Int)) (N * m * s) = some (m * s) := by
    simp only [set_total_bytes]
    rw [if_pos ⟨by exact_mod_cast hN.ne', by exact_mod_cast hN⟩]
    rw [Int.toNat_natCast, Nat.mul_assoc, Nat.mul_div_cancel_left _ hN,
      Nat.max_eq_right hms1]
  rw [htarget]
  obtain ⟨n, rfl⟩ : ∃ n, N = n + 1 := ⟨N - 1, by omega⟩
  obtain ⟨mm, rfl⟩ : ∃ mm, m = mm + 1 := ⟨m - 1, by omega⟩
  have hsplit : (n + 1) * (mm + 1) = 1 + (mm + n * (mm + 1)) := by ring
  rw [hsplit, List.replicate_add, List.replicate_add, List.replicate_one,
    route_seq_list_append, route_seq_list_append]
  have h1 : route_seq_list outDir base maxBytes (some ((mm + 1) * s)) initRouter [s]
      = evenState outDir base (mm + 1) s 0 1 := by
    simp only [route_seq_list]
    rw [even_first_step]
  rw [h1,
    even_fill_run outDir base maxBytes (mm + 1) s 0 hs hcap mm 1 (by omega) (by omega),
    even_block_run outDir base maxBytes (mm + 1) s hm hs hcap n 0]
  constructor
  · simp [evenState]
  · simp [containerTotals, evenState, List.replicate_succ']

/-- Witness for `c2_amended`: `splitCount = 2`, six items of 10 bytes under a
100-byte cap give exactly two containers of 30 bytes each. -/
theorem c2_witness :
    (route_seq_list "out" "emails" 100 (set_total_bytes (some ((2 : Nat) : Int)) (2 * 3 * 10))
        initRouter (List.replicate (2 * 3) 10)).cur.part = 2 ∧
    containerTotals (route_seq_list "out" "emails" 100
        (set_total_bytes (some ((2 : Nat) : Int)) (2 * 3 * 10))
        initRouter (List.replicate (2 * 3) 10)) = List.replicate 2 (3 * 10) :=
  c2_amended "out" "emails" 2 3 10 100 (by decide) (by decide) (by decide) (by decide)
